import Mathlib

/-!
Shallow embedding of the audio-transcriber priority scheduler and its
file-derived state machine, translated from `src/core/task_manager.py`,
`src/core/file_manager.py`, `src/api/models.py` and `src/api/routes.py`.

Modelling conventions:
* timestamps (`datetime.now()`) are `Nat` parameters supplied by the caller;
* `uuid.uuid4()` task ids are `String` parameters supplied by the caller;
* Python dicts are association lists (`List (String × α)`) with dict
  semantics: insertion replaces in place, lookup finds the unique entry;
* Python float statistics are modelled with `ℚ`;
* Python object mutation of a task shared between the registry and the
  queue is modelled by identity-based write-back (`syncActive`), where the
  unique `task_id` stands for object identity;
* `queue.PriorityQueue` pops its least element under `ProcessingTask.__lt__`;
  draining the heap is modelled as a stable insertion sort by that order,
  which agrees with any heap whenever the popped keys are strictly ordered.
-/

namespace AudioTranscriber

/-- `api/models.py`: `TaskPriority(int, Enum)`, `DELETE=0, API=1, AUTO_SCAN=2`. -/
inductive TaskPriority where
  | delete
  | api
  | auto_scan
deriving DecidableEq, Repr

/-- The integer value of the `TaskPriority` int-enum. -/
def TaskPriority.value : TaskPriority → Nat
  | .delete => 0
  | .api => 1
  | .auto_scan => 2

/-- `api/models.py`: `TaskStatus(str, Enum)`. -/
inductive TaskStatus where
  | pending
  | processing
  | completed
  | error
  | file_not_found
deriving DecidableEq, Repr

/-- The string value of the `TaskStatus` str-enum. -/
def TaskStatus.value : TaskStatus → String
  | .pending => "pending"
  | .processing => "processing"
  | .completed => "completed"
  | .error => "error"
  | .file_not_found => "file_not_found"

/-- `TaskStatus(s)` enum construction: `some` on a valid enum value, `none`
where Python raises `ValueError`. -/
def TaskStatus.ofString? (s : String) : Option TaskStatus :=
  if s = "pending" then some .pending
  else if s = "processing" then some .processing
  else if s = "completed" then some .completed
  else if s = "error" then some .error
  else if s = "file_not_found" then some .file_not_found
  else none

/-- `core/task_manager.py` `ProcessingTask` dataclass.  The opaque
`transcribe_request` payload is modelled as an uninterpreted `String`. -/
structure ProcessingTask where
  task_id : String
  filename : String
  priority : TaskPriority
  status : TaskStatus
  created_at : Nat
  transcribe_request : Option String := none
  started_at : Option Nat := none
  completed_at : Option Nat := none
  error_message : Option String := none
  retry_count : Nat := 0
  client_id : Option String := none
deriving DecidableEq, Repr

/-- `ProcessingTask.__lt__`: lower priority number first, ties broken by
earlier `created_at`. -/
def taskLT (a b : ProcessingTask) : Bool :=
  if a.priority.value ≠ b.priority.value then
    decide (a.priority.value < b.priority.value)
  else
    decide (a.created_at < b.created_at)

/-! ### Association lists with Python-dict semantics -/

/-- Dict lookup: value of the entry with the given key. -/
def dictLookup (l : List (String × α)) (k : String) : Option α :=
  (l.find? (fun p => p.1 == k)).map (·.2)

/-- Dict membership (`k in d`). -/
def dictContains (l : List (String × α)) (k : String) : Bool :=
  (dictLookup l k).isSome

/-- Dict assignment `d[k] = v`: replaces the existing entry in place,
otherwise appends (Python dicts preserve insertion order). -/
def dictInsert (l : List (String × α)) (k : String) (v : α) : List (String × α) :=
  match l with
  | [] => [(k, v)]
  | p :: tl => if p.1 == k then (k, v) :: tl else p :: dictInsert tl k v

/-- Dict deletion `d.pop(k)` (keys are unique, so filtering suffices). -/
def dictErase (l : List (String × α)) (k : String) : List (String × α) :=
  l.filter (fun p => !(p.1 == k))

/-! ### Priority queue drain order -/

/-- Insert a task into a list sorted by `taskLT`, stably. -/
def insertTask (t : ProcessingTask) : List ProcessingTask → List ProcessingTask
  | [] => [t]
  | h :: tl => if taskLT t h then t :: h :: tl else h :: insertTask t tl

/-- The order in which repeatedly calling `PriorityQueue.get()` drains the
heap: nondecreasing under `__lt__`. -/
def sortTasks : List ProcessingTask → List ProcessingTask
  | [] => []
  | h :: tl => insertTask h (sortTasks tl)

theorem taskLT_irrefl (a : ProcessingTask) : taskLT a a = false := by
  simp [taskLT]

theorem taskLT_asymm {a b : ProcessingTask} (h : taskLT a b = true) :
    taskLT b a = false := by
  simp only [taskLT] at *
  split at h <;> split <;> simp_all <;> omega

theorem taskLT_trans {a b c : ProcessingTask} (hab : taskLT a b = true)
    (hbc : taskLT b c = true) : taskLT a c = true := by
  simp only [taskLT] at *
  split at hab <;> split at hbc <;> split <;> simp_all <;> omega

theorem mem_insertTask {x t : ProcessingTask} {l : List ProcessingTask} :
    x ∈ insertTask t l ↔ x = t ∨ x ∈ l := by
  induction l with
  | nil => simp [insertTask]
  | cons h tl ih =>
    simp only [insertTask]
    split
    · simp [or_comm, or_left_comm]
    · simp [ih, or_comm, or_left_comm]

theorem mem_sortTasks {x : ProcessingTask} {l : List ProcessingTask} :
    x ∈ sortTasks l ↔ x ∈ l := by
  induction l with
  | nil => simp [sortTasks]
  | cons h tl ih => simp [sortTasks, mem_insertTask, ih]

/-- `sortTasks` output is pairwise nondecreasing: no later element is
strictly less than an earlier one. -/
theorem pairwise_sortTasks (l : List ProcessingTask) :
    (sortTasks l).Pairwise (fun a b => taskLT b a = false) := by
  induction l with
  | nil => simp [sortTasks]
  | cons h tl ih =>
    simp only [sortTasks]
    generalize hs : sortTasks tl = s at ih
    clear hs
    induction s with
    | nil => simp [insertTask]
    | cons h' tl' ih' =>
      rcases List.pairwise_cons.mp ih with ⟨hrel, hp⟩
      simp only [insertTask]
      split
      · rename_i hlt
        refine List.pairwise_cons.mpr ⟨?_, ih⟩
        intro x hx
        rcases List.mem_cons.mp hx with rfl | hx
        · exact taskLT_asymm hlt
        · have hrx := hrel x hx
          by_contra hc
          simp only [Bool.not_eq_false] at hc
          exact absurd (taskLT_trans hc hlt) (by simp [hrx])
      · rename_i hnlt
        refine List.pairwise_cons.mpr ⟨?_, ih' hp⟩
        intro x hx
        rcases mem_insertTask.mp hx with hx | hx
        · subst hx
          simpa using hnlt
        · exact hrel x hx

/-! ### Task manager state -/

/-- `TaskManager.__init__` statistics dict.  The keys are always present,
initialised to `0`/`0.0`; `avg_processing_time` is a Python float, modelled
as `ℚ`. -/
structure Stats where
  total_processed : Nat := 0
  total_errors : Nat := 0
  avg_processing_time : ℚ := 0
deriving DecidableEq, Repr

/-- `TaskManager` mutable state.  `current_process` models the
`self._current_process` subprocess handle; the source only ever assigns it
`None` (the assignment in `core/transcriber.py` is commented out), which
the embedding keeps as an `Option Unit` field. -/
structure TMState where
  task_queue : List ProcessingTask := []
  active_tasks : List (String × ProcessingTask) := []
  completed_tasks : List (String × ProcessingTask) := []
  processing_task : Option ProcessingTask := none
  current_process : Option Unit := none
  stats : Stats := {}
deriving DecidableEq, Repr

/-- `TaskManager._update_stats`. -/
def updateStats (processing_time : ℚ) (success : Bool) (s : Stats) : Stats :=
  if success then
    let total := s.total_processed + 1
    { s with
      total_processed := total
      avg_processing_time :=
        (s.avg_processing_time * (total - 1 : ℚ) + processing_time) / (total : ℚ) }
  else
    { s with total_errors := s.total_errors + 1 }

/-- `TaskManager.remove_task`: removes the entry from `_active_tasks` only
(the queue keeps any physical entry until the next dequeue scan). -/
def removeTask (tm : TMState) (filename : String) : Bool × TMState :=
  if dictContains tm.active_tasks filename then
    (true, { tm with active_tasks := dictErase tm.active_tasks filename })
  else
    (false, tm)

/-- `TaskManager.add_task`: builds the task, removes any existing
`_active_tasks` entry for the filename, then puts the task on the queue and
registers it.  `task_id` stands for `uuid.uuid4()` and `now` for
`datetime.now()`. -/
def addTask (tm : TMState) (filename : String) (priority : TaskPriority)
    (transcribe_request : Option String) (client_id : Option String)
    (task_id : String) (now : Nat) : String × TMState :=
  let task : ProcessingTask :=
    { task_id := task_id
      filename := filename
      priority := priority
      status := .pending
      created_at := now
      transcribe_request := transcribe_request
      client_id := client_id }
  let tm1 := (removeTask tm filename).2
  (task_id,
    { tm1 with
      task_queue := tm1.task_queue ++ [task]
      active_tasks := dictInsert tm1.active_tasks filename task })

/-- `TaskManager.get_highest_priority_task`: drain the heap, keep only
tasks whose filename is still registered in `_active_tasks`, return the
first (least) valid task and put the remaining valid ones back. -/
def getHighestPriorityTask (tm : TMState) : Option ProcessingTask × TMState :=
  let valid := (sortTasks tm.task_queue).filter
    (fun t => dictContains tm.active_tasks t.filename)
  match valid with
  | [] => (none, { tm with task_queue := [] })
  | h :: tl => (some h, { tm with task_queue := tl })

/-- `TaskManager.interrupt_processing`: interrupts only when a task with
this filename is marked processing **and** a process handle is registered;
returns whether an interruption was performed. -/
def interruptProcessing (tm : TMState) (filename : String) : Bool :=
  match tm.processing_task with
  | some t => t.filename == filename && tm.current_process.isSome
  | none => false

/-- `TaskManager.get_task_info`: active tasks first, then the
completed-history map; the `TaskInfo` projection copies every field, so the
task itself is returned. -/
def getTaskInfo (tm : TMState) (filename : String) : Option ProcessingTask :=
  match dictLookup tm.active_tasks filename with
  | some t => some t
  | none => dictLookup tm.completed_tasks filename

/-- `TaskManager.get_queue_position`: 1 plus the number of other pending
registered tasks that are strictly higher priority, or same priority with
strictly earlier creation time. -/
def getQueuePosition (tm : TMState) (filename : String) : Option Nat :=
  match dictLookup tm.active_tasks filename with
  | none => none
  | some target =>
    if target.status ≠ TaskStatus.pending then none
    else some (1 + tm.active_tasks.countP (fun p =>
      decide (p.2.status = TaskStatus.pending ∧ p.1 ≠ filename ∧
        (p.2.priority.value < target.priority.value ∨
          (p.2.priority.value = target.priority.value ∧
            p.2.created_at < target.created_at)))))

/-- `TaskManager.get_estimated_wait_time`: finds the pending task by id and
multiplies (queue position - 1) by the current average processing time.
`_stats` always contains `avg_processing_time`, so the `.get` fallback of
`60.0` in the source is never consulted. -/
def getEstimatedWaitTime (tm : TMState) (task_id : String) : Option ℚ :=
  match (tm.active_tasks.map (·.2)).find? (fun t => t.task_id == task_id) with
  | none => none
  | some task =>
    if task.status ≠ TaskStatus.pending then none
    else
      match getQueuePosition tm task.filename with
      | none => none
      | some pos => some (((pos : ℚ) - 1) * tm.stats.avg_processing_time)

/-! ### Filesystem artifacts and the file manager -/

/-- Split a character list on `'.'` (structural recursion mirroring
`str.split('.')`). -/
def splitOnDot : List Char → List (List Char)
  | [] => [[]]
  | c :: rest =>
    match splitOnDot rest with
    | [] => [[]]
    | g :: gs => if c = '.' then [] :: g :: gs else (c :: g) :: gs

/-- `Path(filename).stem` for ordinary names: the name without its last
dot-suffix; a lone leading dot (hidden file) carries no suffix. -/
def pathStem (s : String) : String :=
  match splitOnDot s.data with
  | [] => s
  | [_] => s
  | h :: tl =>
    if h = [] ∧ tl.length = 1 then s
    else String.mk (List.intercalate ['.'] ((h :: tl).dropLast))

/-- The JSON dictionary written by `FileManager.update_status_file` and
cached in `FileManager._status_cache`.  `Option` fields model keys that may
be absent from the JSON object. -/
structure StatusData where
  filename? : Option String := none
  status? : Option String := none
  updated_at? : Option Nat := none
  task_id? : Option String := none
  started_at? : Option Nat := none
  completed_at? : Option Nat := none
  progress? : Option Nat := none
  error? : Option String := none
  retry_count? : Option Nat := none
deriving DecidableEq, Repr

/-- A JSON value, the payload format of the persisted result artifact.
Numbers are split into exact rationals (Python floats) and naturals. -/
inductive JValue where
  | null
  | bool (b : Bool)
  | str (s : String)
  | num (q : ℚ)
  | nat (n : Nat)
  | arr (xs : List JValue)
  | obj (fields : List (String × JValue))

/-- `api/models.py` `TranscriptionSegment`; the opaque word-level payloads
(`words: Optional[List[Dict]]`) are modelled as uninterpreted strings. -/
structure TranscriptionSegment where
  start : ℚ
  «end» : ℚ
  text : String
  confidence : Option ℚ := none
  words : Option (List String) := none
deriving DecidableEq, Repr

/-- `api/models.py` `TranscriptionResult`, the structured result returned
by the engine adapter; the `datetime` timestamp is modelled as `Nat`. -/
structure TranscriptionResult where
  filename : String
  language : String
  duration : ℚ
  text : String
  segments : List TranscriptionSegment
  word_count : Nat
  confidence_avg : Option ℚ := none
  model_used : String
  processing_time : ℚ
  timestamp : Nat
deriving DecidableEq, Repr

/-- JSON-encode an optional rational (absent values serialise as `null`). -/
def encodeOptNum : Option ℚ → JValue
  | none => .null
  | some q => .num q

/-- JSON-encode one transcription segment. -/
def encodeSegment (s : TranscriptionSegment) : JValue :=
  .obj [("start", .num s.start), ("end", .num s.«end»), ("text", .str s.text),
        ("confidence", encodeOptNum s.confidence),
        ("words", match s.words with
          | none => .null
          | some w => .arr (w.map .str))]

/-- Modelled from the spec: serialisation of the result artifact written by
`FileManager.save_result`, which is called from
`TaskManager._process_task` but has no definition under `src/`; the field
layout follows the §6 persisted result schema `{filename, language,
duration, text, segments[], word_count, confidence_avg?, model_used,
processing_time, timestamp}`. -/
def encodeResult (r : TranscriptionResult) : JValue :=
  .obj [("filename", .str r.filename), ("language", .str r.language),
        ("duration", .num r.duration), ("text", .str r.text),
        ("segments", .arr (r.segments.map encodeSegment)),
        ("word_count", .nat r.word_count),
        ("confidence_avg", encodeOptNum r.confidence_avg),
        ("model_used", .str r.model_used),
        ("processing_time", .num r.processing_time),
        ("timestamp", .nat r.timestamp)]

/-- Read a JSON string. -/
def JValue.asStr : JValue → Option String
  | .str s => some s
  | _ => none

/-- Read a JSON rational. -/
def JValue.asNum : JValue → Option ℚ
  | .num q => some q
  | _ => none

/-- Read a JSON natural. -/
def JValue.asNat : JValue → Option Nat
  | .nat n => some n
  | _ => none

/-- Read a nullable JSON rational. -/
def JValue.asOptNum : JValue → Option (Option ℚ)
  | .null => some none
  | .num q => some (some q)
  | _ => none

/-- Read a JSON string array, element by element. -/
def decodeStrings : List JValue → Option (List String)
  | [] => some []
  | v :: vs => do
    let s ← v.asStr
    let rest ← decodeStrings vs
    pure (s :: rest)

/-- Read a nullable JSON string array. -/
def JValue.asOptStrList : JValue → Option (Option (List String))
  | .null => some none
  | .arr xs => (decodeStrings xs).map some
  | _ => none

/-- Look up a field of a JSON object body. -/
def jGet (fields : List (String × JValue)) (k : String) : Option JValue :=
  dictLookup fields k

/-- Parse one transcription segment back from JSON. -/
def decodeSegment : JValue → Option TranscriptionSegment
  | .obj f => do
    let start ← (jGet f "start").bind JValue.asNum
    let stop ← (jGet f "end").bind JValue.asNum
    let text ← (jGet f "text").bind JValue.asStr
    let confidence ← (jGet f "confidence").bind JValue.asOptNum
    let words ← (jGet f "words").bind JValue.asOptStrList
    pure { start := start, «end» := stop, text := text,
           confidence := confidence, words := words }
  | _ => none

/-- Parse a JSON array of segments, element by element. -/
def decodeSegments : List JValue → Option (List TranscriptionSegment)
  | [] => some []
  | v :: vs => do
    let s ← decodeSegment v
    let rest ← decodeSegments vs
    pure (s :: rest)

/-- Modelled from the spec: the parser behind `FileManager.get_result`
(called by `routes.get_transcription_result` but absent from `src/`),
reading the §6 result-artifact schema back into the structured
`TranscriptionResult`. -/
def decodeResult : JValue → Option TranscriptionResult
  | .obj f => do
    let filename ← (jGet f "filename").bind JValue.asStr
    let language ← (jGet f "language").bind JValue.asStr
    let duration ← (jGet f "duration").bind JValue.asNum
    let text ← (jGet f "text").bind JValue.asStr
    let segments ← match jGet f "segments" with
      | some (.arr xs) => decodeSegments xs
      | _ => none
    let word_count ← (jGet f "word_count").bind JValue.asNat
    let confidence_avg ← (jGet f "confidence_avg").bind JValue.asOptNum
    let model_used ← (jGet f "model_used").bind JValue.asStr
    let processing_time ← (jGet f "processing_time").bind JValue.asNum
    let timestamp ← (jGet f "timestamp").bind JValue.asNat
    pure { filename := filename, language := language, duration := duration,
           text := text, segments := segments, word_count := word_count,
           confidence_avg := confidence_avg, model_used := model_used,
           processing_time := processing_time, timestamp := timestamp }
  | _ => none

/-- `core/file_manager.py` `FileManager` state: the shared directory's
artifact files (keyed by `Path(filename).stem`), the set of source audio
files (full filenames), and the in-memory status cache (keyed by full
filename).  Auxiliary engine outputs (`.txt`/`.srt`/…) are outside the
artifact model. -/
structure FMState where
  in_progress_files : List (String × StatusData) := []
  result_files : List (String × JValue) := []
  source_files : List String := []
  status_cache : List (String × StatusData) := []

/-- `FileManager.file_exists`. -/
def fileExists (fs : FMState) (filename : String) : Bool :=
  fs.source_files.contains filename

/-- `FileManager.update_status_file`: writes `{filename, status,
updated_at}` merged with the additional data to the `.in_progress` file and
mirrors it into the cache.  All call sites pass additional keys disjoint
from the base keys, so overriding in either direction coincides. -/
def updateStatusFile (fs : FMState) (filename : String) (status : TaskStatus)
    (extra : StatusData) (now : Nat) : FMState :=
  let data : StatusData :=
    { extra with
      filename? := some filename
      status? := some status.value
      updated_at? := some now }
  { fs with
    in_progress_files := dictInsert fs.in_progress_files (pathStem filename) data
    status_cache := dictInsert fs.status_cache filename data }

/-- Modelled from the spec: `FileManager.save_result` (called from
`TaskManager._process_task`, not defined under `src/`) persists the
serialised result artifact for the file's stem. -/
def saveResult (fs : FMState) (filename : String) (res : TranscriptionResult) :
    FMState :=
  { fs with
    result_files := dictInsert fs.result_files (pathStem filename) (encodeResult res) }

/-- `FileManagerMixin.result_exists` / existence test of the `.result`
artifact. -/
def resultExists (fs : FMState) (filename : String) : Bool :=
  dictContains fs.result_files (pathStem filename)

/-- Modelled from the spec: `FileManager.get_result` (called by
`routes.get_transcription_result`, not defined under `src/`) parses the
stored result artifact back into a structured `TranscriptionResult`. -/
def getResult (fs : FMState) (filename : String) : Option TranscriptionResult :=
  (dictLookup fs.result_files (pathStem filename)).bind decodeResult

/-- `FileManagerMixin.delete_all_related_files`: unlink the source file and
every artifact derived from its stem, and drop the cache entry. -/
def deleteAllRelatedFiles (fs : FMState) (filename : String) : FMState :=
  { fs with
    in_progress_files := dictErase fs.in_progress_files (pathStem filename)
    result_files := dictErase fs.result_files (pathStem filename)
    source_files := fs.source_files.filter (fun f => !(f == filename))
    status_cache := dictErase fs.status_cache filename }

/-- The cache step of `FileManager.get_file_status`: the cached entry's
`status` string, when present, non-empty and a valid `TaskStatus`. -/
def cacheStatus (fs : FMState) (filename : String) : Option TaskStatus :=
  (dictLookup fs.status_cache filename).bind
    (fun d => d.status?.bind TaskStatus.ofString?)

/-- `FileManager.get_file_status` resolution chain: (a) cache, (b)
`.in_progress` artifact (embedded status, default `"processing"`; an
unparsable status falls through like the caught `ValueError`), (c)
`.result` artifact ⇒ completed, (d) task-manager info (active **or**
completed history) ⇒ pending, (e) source file present ⇒ pending, else
`none`.  The source also refreshes the cache on branches (b) and (c); the
write-back never changes the value returned by the call itself and is
omitted. -/
def getFileStatus (fs : FMState) (tm : TMState) (filename : String) :
    Option TaskStatus :=
  match cacheStatus fs filename with
  | some ts => some ts
  | none =>
    let afterInProgress : Option TaskStatus :=
      match dictLookup fs.in_progress_files (pathStem filename) with
      | some d => TaskStatus.ofString? (d.status?.getD "processing")
      | none => none
    match afterInProgress with
    | some ts => some ts
    | none =>
      if dictContains fs.result_files (pathStem filename) then
        some .completed
      else if (getTaskInfo tm filename).isSome then
        some .pending
      else if fileExists fs filename then
        some .pending
      else
        none

/-- `routes.get_transcription_status`: a `None` file status is reported as
`FILE_NOT_FOUND`. -/
def statusOf (fs : FMState) (tm : TMState) (filename : String) : TaskStatus :=
  (getFileStatus fs tm filename).getD .file_not_found

/-! ### The processing loop (`TaskManager._process_task`) -/

/-- In Python the registry holds references to the very task object the
loop mutates; write-back by object identity, with the unique `task_id`
standing for identity. -/
def syncActive (active : List (String × ProcessingTask)) (t : ProcessingTask) :
    List (String × ProcessingTask) :=
  active.map (fun p => if p.2.task_id == t.task_id then (p.1, t) else p)

/-- Result of one engine invocation
(`WhisperXTranscriber.transcribe_file`): a structured transcription, or an
exception (`EngineTimeout` / `EngineFailure`) carrying its message. -/
inductive EngineResult where
  | success (res : TranscriptionResult)
  | failure (msg : String)

/-- What one `_process_task` invocation did, including the backoff the
retry branch sleeps before re-queueing. -/
inductive ProcessOutcome where
  | completedOk
  | retried (delay : Nat)
  | failedTerminal
deriving DecidableEq, Repr

/-- First half of `_process_task`: mark the task processing, record
`started_at`, set `_processing_task`, and write the in-progress artifact
with `progress=0`. -/
def beginProcessing (tm : TMState) (fs : FMState) (task : ProcessingTask)
    (now : Nat) : TMState × FMState × ProcessingTask :=
  let task1 := { task with status := TaskStatus.processing, started_at := some now }
  let tm1 := { tm with
    processing_task := some task1
    active_tasks := syncActive tm.active_tasks task1 }
  let fs1 := updateStatusFile fs task1.filename .processing
    { task_id? := some task1.task_id, started_at? := some now,
      progress? := some 0 } now
  (tm1, fs1, task1)

/-- Success half of `_process_task`: save the result artifact, mark
completed, write the completed status artifact with `progress=100`, move
the task from the active registry to the completed history, update the
rolling statistics, and clear `_processing_task`/`_current_process`. -/
def finishSuccess (tm : TMState) (fs : FMState) (task1 : ProcessingTask)
    (res : TranscriptionResult) (now : Nat) : TMState × FMState × ProcessOutcome :=
  let fs1 := saveResult fs task1.filename res
  let task2 := { task1 with status := TaskStatus.completed, completed_at := some now }
  let fs2 := updateStatusFile fs1 task2.filename .completed
    { task_id? := some task2.task_id, completed_at? := some now,
      progress? := some 100 } now
  let processing_time : ℚ := ((now - task2.started_at.getD 0 : Nat) : ℚ)
  let tm1 := { tm with
    active_tasks := dictErase (syncActive tm.active_tasks task2) task2.filename
    completed_tasks := dictInsert tm.completed_tasks task2.filename task2
    stats := updateStats processing_time true tm.stats
    processing_task := none
    current_process := none }
  (tm1, fs2, .completedOk)

/-- Failure half of `_process_task`: bump `retry_count`, record the error;
below `max_retries` reset to pending, sleep `2 ** retry_count`, and
re-queue; otherwise mark terminal error, write the error artifact with the
final `retry_count`, move to the completed history and count the error. -/
def finishFailure (tm : TMState) (fs : FMState) (task1 : ProcessingTask)
    (msg : String) (maxRetries : Nat) (now : Nat) :
    TMState × FMState × ProcessOutcome :=
  let task2 := { task1 with
    retry_count := task1.retry_count + 1, error_message := some msg }
  if task2.retry_count < maxRetries then
    let task3 := { task2 with status := TaskStatus.pending, started_at := none }
    let tm1 := { tm with
      task_queue := tm.task_queue ++ [task3]
      active_tasks := syncActive tm.active_tasks task3
      processing_task := none
      current_process := none }
    (tm1, fs, .retried (2 ^ task3.retry_count))
  else
    let task3 := { task2 with status := TaskStatus.error, completed_at := some now }
    let fs1 := updateStatusFile fs task3.filename .error
      { task_id? := some task3.task_id, error? := some msg,
        retry_count? := some task3.retry_count, completed_at? := some now } now
    let tm1 := { tm with
      active_tasks := dictErase (syncActive tm.active_tasks task3) task3.filename
      completed_tasks := dictInsert tm.completed_tasks task3.filename task3
      stats := updateStats 0 false tm.stats
      processing_task := none
      current_process := none }
    (tm1, fs1, .failedTerminal)

/-- One full `_process_task` invocation: begin, run the engine, then the
success or failure epilogue.  `startTime`/`endTime` model the two
`datetime.now()` readings. -/
def processTask (tm : TMState) (fs : FMState) (task : ProcessingTask)
    (eng : EngineResult) (maxRetries startTime endTime : Nat) :
    TMState × FMState × ProcessOutcome :=
  match beginProcessing tm fs task startTime with
  | (tm1, fs1, task1) =>
    match eng with
    | .success res => finishSuccess tm1 fs1 task1 res endTime
    | .failure msg => finishFailure tm1 fs1 task1 msg maxRetries endTime

/-- The `start_processing` loop driven against an engine that fails every
invocation: dequeue, process, repeat; stops when no valid task remains.
Returns the final state and the number of engine attempts made. -/
def runFailingLoop (maxRetries : Nat) (msg : String) :
    Nat → TMState × FMState → Nat → (TMState × FMState) × Nat
  | 0, s, attempts => (s, attempts)
  | fuel + 1, (tm, fs), attempts =>
    match getHighestPriorityTask tm with
    | (none, tm1) => ((tm1, fs), attempts)
    | (some task, tm1) =>
      match processTask tm1 fs task (.failure msg) maxRetries 0 0 with
      | (tm2, fs2, _) => runFailingLoop maxRetries msg fuel (tm2, fs2) (attempts + 1)

/-! ### HTTP routes (`api/routes.py`) -/

/-- `routes.delete_transcription`: remove the task from the registry,
attempt to interrupt the in-flight process, then purge all related files;
also reports whether an interruption was actually performed. -/
def deleteTranscription (tm : TMState) (fs : FMState) (filename : String) :
    TMState × FMState × Bool :=
  let tm1 := (removeTask tm filename).2
  let interrupted := interruptProcessing tm1 filename
  let fs1 := deleteAllRelatedFiles fs filename
  (tm1, fs1, interrupted)

/-- `routes.get_transcription_result`: `not_found` (`none`) unless the
result artifact exists, otherwise its parsed payload. -/
def resultOf (fs : FMState) (filename : String) : Option TranscriptionResult :=
  if resultExists fs filename then getResult fs filename else none

/-! ### Concrete scenario fixtures -/

/-- Jobs with priorities [API, AUTO_SCAN, API] submitted at times 0, 1, 2
for keys A, B, C (spec §8's ordering/position scenario). -/
def tmABC : TMState :=
  (addTask (addTask (addTask {} "A.mp3" .api none none "idA" 0).2
    "B.mp3" .auto_scan none none "idB" 1).2 "C.mp3" .api none none "idC" 2).2

/-- Key "x.mp3" submitted twice with different parameters (spec §8's
dedup-on-submit scenario). -/
def tmTwice : TMState :=
  (addTask (addTask {} "x.mp3" .api (some "params-one") none "id1" 0).2
    "x.mp3" .api (some "params-two") none "id2" 1).2

/-- A single submitted job (retry scenario). -/
def tmSingle : TMState :=
  (addTask {} "a.mp3" .api none none "id-a" 0).2

/-! ### Helper lemmas -/

theorem dictLookup_dictInsert_self (l : List (String × α)) (k : String) (v : α) :
    dictLookup (dictInsert l k v) k = some v := by
  induction l with
  | nil => simp [dictInsert, dictLookup, List.find?]
  | cons p tl ih =>
    simp only [dictInsert]
    split
    · simp [dictLookup, List.find?]
    · rename_i h
      simp only [Bool.not_eq_true] at h
      simp only [dictLookup, List.find?, h] at *
      exact ih

theorem dictLookup_dictErase_self (l : List (String × α)) (k : String) :
    dictLookup (dictErase l k) k = none := by
  induction l with
  | nil => rfl
  | cons p tl ih =>
    simp only [dictErase, List.filter] at *
    cases h : p.1 == k with
    | true => simp [h, ih]
    | false => simp [dictLookup, List.find?, h, ih]

theorem decodeStrings_roundtrip (l : List String) :
    decodeStrings (l.map JValue.str) = some l := by
  induction l with
  | nil => rfl
  | cons h tl ih => simp [decodeStrings, JValue.asStr, ih]

theorem decodeSegment_encodeSegment (s : TranscriptionSegment) :
    decodeSegment (encodeSegment s) = some s := by
  cases s with
  | mk start stop text confidence words =>
    cases confidence <;> cases words <;>
      simp [decodeSegment, encodeSegment, jGet, dictLookup, List.find?,
        JValue.asNum, JValue.asStr, JValue.asOptNum, JValue.asOptStrList,
        encodeOptNum, decodeStrings_roundtrip]

theorem decodeSegments_roundtrip (l : List TranscriptionSegment) :
    decodeSegments (l.map encodeSegment) = some l := by
  induction l with
  | nil => rfl
  | cons h tl ih => simp [decodeSegments, decodeSegment_encodeSegment, ih]

theorem decodeResult_encodeResult (r : TranscriptionResult) :
    decodeResult (encodeResult r) = some r := by
  cases r with
  | mk filename language duration text segments word_count confidence_avg
      model_used processing_time timestamp =>
    cases confidence_avg <;>
      simp [decodeResult, encodeResult, jGet, dictLookup, List.find?,
        JValue.asNum, JValue.asStr, JValue.asNat, JValue.asOptNum,
        encodeOptNum, decodeSegments_roundtrip]

/-- A task ordered no earlier than another in the drain order is no better
under the (priority, created_at) ranking. -/
theorem taskLT_false_le {u t : ProcessingTask} (h : taskLT u t = false) :
    t.priority.value ≤ u.priority.value ∧
      (t.priority.value = u.priority.value → t.created_at ≤ u.created_at) := by
  simp only [taskLT] at h
  split at h
  · simp_all
    omega
  · simp_all

/-- The job submitted first in the §8 ordering scenario, exactly as
`add_task` constructs it. -/
def taskA : ProcessingTask :=
  { task_id := "idA", filename := "A.mp3", priority := .api,
    status := .pending, created_at := 0 }

/-! ### Claims -/

/-- Claim C1 (round trip): every successful completion of the processing
loop persists the result artifact via `save_result`, and the public
`result(key)` operation parses it back into a `TranscriptionResult` equal
to the one the engine adapter returned; serialisation and parsing are
modelled from the spec's §6 artifact schema since `save_result` /
`get_result` have no definition under `src/`. -/
theorem result_artifact_roundtrip :
    (∀ r : TranscriptionResult, decodeResult (encodeResult r) = some r) ∧
    (∀ (tm : TMState) (fs : FMState) (task : ProcessingTask)
        (res : TranscriptionResult) (now : Nat),
      resultOf (finishSuccess tm fs task res now).2.1 task.filename = some res ∧
      (finishSuccess tm fs task res now).2.2 = ProcessOutcome.completedOk) := by
  refine ⟨decodeResult_encodeResult, ?_⟩
  intro tm fs task res now
  constructor
  · show resultOf _ _ = _
    simp only [finishSuccess, resultOf, resultExists, getResult, saveResult,
      updateStatusFile, dictContains]
    rw [dictLookup_dictInsert_self]
    simp [decodeResult_encodeResult]
  · rfl

/-- Claim C2, evaluated at the failing input: after submitting key
"x.mp3" twice with different parameters, the registry holds only the
second job, but the physical queue still holds **two** jobs for the key
(`remove_task` never removes queue entries, and the re-submission makes the
stale entry pass the `dequeue` membership check again), and
`dequeue_highest` returns the **first** submission's job and parameters —
against both the claim and `remove_task`'s own docstring ("Remove task
from queue and tracking"). -/
theorem resubmit_leaves_stale_queue_entry :
    tmTwice.task_queue.countP (fun t => t.filename == "x.mp3") = 2 ∧
    (dictLookup tmTwice.active_tasks "x.mp3").map (fun t => t.transcribe_request) =
      some (some "params-two") ∧
    ((getHighestPriorityTask tmTwice).1).map
      (fun t => (t.task_id, t.transcribe_request)) = some ("id1", some "params-one") := by
  decide

/-- Claim C3 (priority + FIFO extraction): whenever `dequeue_highest`
returns a job, that job is a registered queue entry and no other
registered queue entry has a smaller priority value or, at equal priority,
an earlier `created_at`; moreover the §8 scenario [API@0 (A), AUTO_SCAN@1
(B), API@2 (C)] is extracted in the order A, C, B. -/
theorem dequeue_priority_fifo :
    (∀ (tm : TMState) (t : ProcessingTask),
      (getHighestPriorityTask tm).1 = some t →
      t ∈ tm.task_queue ∧ dictContains tm.active_tasks t.filename = true ∧
      ∀ u ∈ tm.task_queue, dictContains tm.active_tasks u.filename = true →
        t.priority.value ≤ u.priority.value ∧
          (t.priority.value = u.priority.value → t.created_at ≤ u.created_at)) ∧
    (((getHighestPriorityTask tmABC).1).map (·.filename) = some "A.mp3" ∧
      ((getHighestPriorityTask (getHighestPriorityTask tmABC).2).1).map (·.filename) =
        some "C.mp3" ∧
      ((getHighestPriorityTask
          (getHighestPriorityTask (getHighestPriorityTask tmABC).2).2).1).map
        (·.filename) = some "B.mp3") := by
  constructor
  · intro tm t h
    simp only [getHighestPriorityTask] at h
    cases hv : (sortTasks tm.task_queue).filter
        (fun u => dictContains tm.active_tasks u.filename) with
    | nil => rw [hv] at h; simp at h
    | cons h0 tl =>
      rw [hv] at h
      simp only [Option.some.injEq] at h
      cases h
      have hmem : t ∈ (sortTasks tm.task_queue).filter
          (fun u => dictContains tm.active_tasks u.filename) := by
        rw [hv]; exact List.mem_cons_self _ _
      have hmem' := List.mem_filter.mp hmem
      refine ⟨mem_sortTasks.mp hmem'.1, by simpa using hmem'.2, ?_⟩
      intro u hu hvalid
      have hpw : ((sortTasks tm.task_queue).filter
          (fun u => dictContains tm.active_tasks u.filename)).Pairwise
            (fun a b => taskLT b a = false) :=
        (pairwise_sortTasks tm.task_queue).filter _
      rw [hv] at hpw
      have humem : u ∈ (sortTasks tm.task_queue).filter
          (fun u => dictContains tm.active_tasks u.filename) :=
        List.mem_filter.mpr ⟨mem_sortTasks.mpr hu, by simpa using hvalid⟩
      rw [hv] at humem
      rcases List.mem_cons.mp humem with rfl | humem
      · exact ⟨le_refl _, fun _ => le_refl _⟩
      · exact taskLT_false_le ((List.pairwise_cons.mp hpw).1 u humem)
  · refine ⟨by decide, by decide, by decide⟩

/-- The single pending job of `tmSingle`, exactly as `add_task` builds it. -/
def c4task : ProcessingTask :=
  { task_id := "id-a", filename := "a.mp3", priority := .api,
    status := .pending, created_at := 0 }

/-- Claim C4 (retry with capped exponential backoff): every engine failure
increments `retry_count`; while it stays below `max_retries` the job is
reset to pending with `started_at` cleared, the loop sleeps
`2 ** retry_count`, and the job is re-queued; once `retry_count` reaches
`max_retries` the job becomes terminal `ERROR`, the in-progress artifact
records the error and the final `retry_count`, the queue is untouched and
the job leaves the active registry; concretely, a job failing under
`max_retries = 3` is attempted exactly 3 times and ends in `ERROR` with
`retry_count = 3`, with nothing left to dequeue. -/
theorem retry_backoff_terminal_error :
    (∀ (tm : TMState) (fs : FMState) (task : ProcessingTask) (msg : String)
        (maxR t0 t1 : Nat), task.retry_count + 1 < maxR →
      (processTask tm fs task (.failure msg) maxR t0 t1).2.2 =
        ProcessOutcome.retried (2 ^ (task.retry_count + 1)) ∧
      (processTask tm fs task (.failure msg) maxR t0 t1).1.task_queue =
        tm.task_queue ++ [{ task with
          status := TaskStatus.pending
          started_at := none
          retry_count := task.retry_count + 1
          error_message := some msg }]) ∧
    (∀ (tm : TMState) (fs : FMState) (task : ProcessingTask) (msg : String)
        (maxR t0 t1 : Nat), maxR ≤ task.retry_count + 1 →
      (processTask tm fs task (.failure msg) maxR t0 t1).2.2 =
        ProcessOutcome.failedTerminal ∧
      dictLookup (processTask tm fs task (.failure msg) maxR t0 t1).1.completed_tasks
          task.filename = some { task with
            status := TaskStatus.error
            started_at := some t0
            completed_at := some t1
            retry_count := task.retry_count + 1
            error_message := some msg } ∧
      (processTask tm fs task (.failure msg) maxR t0 t1).1.task_queue = tm.task_queue ∧
      dictLookup (processTask tm fs task (.failure msg) maxR t0 t1).1.active_tasks
          task.filename = none ∧
      dictLookup (processTask tm fs task (.failure msg) maxR t0 t1).2.1.in_progress_files
          (pathStem task.filename) = some
        { filename? := some task.filename
          status? := some "error"
          updated_at? := some t1
          task_id? := some task.task_id
          completed_at? := some t1
          error? := some msg
          retry_count? := some (task.retry_count + 1) }) ∧
    ((runFailingLoop 3 "boom" 10 (tmSingle, {}) 0).2 = 3 ∧
      (dictLookup (runFailingLoop 3 "boom" 10 (tmSingle, {}) 0).1.1.completed_tasks
          "a.mp3").map (fun t => (t.status, t.retry_count)) =
        some (TaskStatus.error, 3) ∧
      (runFailingLoop 3 "boom" 10 (tmSingle, {}) 0).1.1.task_queue = [] ∧
      (getHighestPriorityTask (runFailingLoop 3 "boom" 10 (tmSingle, {}) 0).1.1).1 =
        none) := by
  refine ⟨?_, ?_, by decide⟩
  · intro tm fs task msg maxR t0 t1 h
    simp only [processTask, beginProcessing, finishFailure]
    rw [if_pos (by simpa using h)]
    exact ⟨rfl, rfl⟩
  · intro tm fs task msg maxR t0 t1 h
    simp only [processTask, beginProcessing, finishFailure]
    rw [if_neg (by simp; omega)]
    refine ⟨rfl, ?_, rfl, ?_, ?_⟩
    · rw [dictLookup_dictInsert_self]
    · rw [dictLookup_dictErase_self]
    · simp only [updateStatusFile]
      rw [dictLookup_dictInsert_self]
      rfl

/-- Witness for C4: the retry branch instantiated at the fresh job of
`tmSingle` (first failure, backoff 2¹) and the terminal branch at the same
job after two prior failures under `max_retries = 3`. -/
theorem retry_backoff_terminal_error_witness :
    ((processTask tmSingle {} c4task (.failure "boom") 3 0 7).2.2 =
        ProcessOutcome.retried (2 ^ (c4task.retry_count + 1)) ∧
      (processTask tmSingle {} c4task (.failure "boom") 3 0 7).1.task_queue =
        tmSingle.task_queue ++ [{ c4task with
          status := TaskStatus.pending
          started_at := none
          retry_count := c4task.retry_count + 1
          error_message := some "boom" }]) ∧
    ((processTask tmSingle {} { c4task with retry_count := 2 }
        (.failure "boom") 3 0 7).2.2 = ProcessOutcome.failedTerminal) :=
  ⟨retry_backoff_terminal_error.1 tmSingle {} c4task "boom" 3 0 7 (by decide),
    (retry_backoff_terminal_error.2.1 tmSingle {} { c4task with retry_count := 2 }
      "boom" 3 0 7 (by decide)).1⟩

/-- A sample engine result for "a.mp3". -/
def resSample : TranscriptionResult :=
  { filename := "a.mp3"
    language := "en"
    duration := 5
    text := "hello world"
    segments := [{ start := 0
                   «end» := 5
                   text := "hello world"
                   confidence := some 1
                   words := some ["hello", "world"] }]
    word_count := 2
    confidence_avg := some 1
    model_used := "small"
    processing_time := 3
    timestamp := 100 }

/-- A shared directory holding only the source file "a.mp3". -/
def fsSingle : FMState := { source_files := ["a.mp3"] }

/-- "a.mp3" has been dequeued and marked processing. -/
def c5begin : TMState × FMState × ProcessingTask :=
  beginProcessing (getHighestPriorityTask tmSingle).2 fsSingle c4task 10

/-- A deletion request for "a.mp3" arrives while it is processing. -/
def c5del : TMState × FMState × Bool :=
  deleteTranscription c5begin.1 c5begin.2.1 "a.mp3"

/-- The in-flight engine invocation then finishes successfully and the
loop runs its success epilogue. -/
def c5fin : TMState × FMState × ProcessOutcome :=
  finishSuccess c5del.1 c5del.2.1 c5begin.2.2 resSample 20

/-- Claim C5, evaluated at the failing input: `_current_process` is never
assigned anywhere in the source (the registration in
`core/transcriber.py` is commented out), so `interrupt_processing` can
never interrupt anything; deleting "a.mp3" mid-flight removes the
registry entry and purges the artifacts, but the in-flight job still
finishes, reaches `COMPLETED`, re-creates its result artifact, and the key
reports `completed` again — against the claim that the process is
interrupted and the job never reaches `COMPLETED`. -/
theorem deletion_interrupt_noop_completes :
    (∀ (tm : TMState) (fn : String),
      interruptProcessing { tm with current_process := none } fn = false) ∧
    ((getHighestPriorityTask tmSingle).1 = some c4task ∧
      c5del.2.2 = false ∧
      c5del.2.1.in_progress_files.length = 0 ∧
      c5del.2.1.result_files.length = 0 ∧
      dictContains c5del.1.active_tasks "a.mp3" = false ∧
      (dictLookup c5fin.1.completed_tasks "a.mp3").map (·.status) =
        some TaskStatus.completed ∧
      statusOf c5fin.2.1 c5fin.1 "a.mp3" = TaskStatus.completed ∧
      resultOf c5fin.2.1 "a.mp3" = some resSample) := by
  refine ⟨?_, by decide, by decide, by decide, by decide, by decide, by decide,
    by decide, ?_⟩
  · intro tm fn
    cases h : tm.processing_task <;> simp [interruptProcessing, h]
  · rfl

/-- Witness for C3: the universally quantified part applied to the §8
scenario, where the dequeued job is A. -/
theorem dequeue_priority_fifo_witness :
    taskA ∈ tmABC.task_queue ∧
    dictContains tmABC.active_tasks taskA.filename = true ∧
    ∀ u ∈ tmABC.task_queue, dictContains tmABC.active_tasks u.filename = true →
      taskA.priority.value ≤ u.priority.value ∧
        (taskA.priority.value = u.priority.value →
          taskA.created_at ≤ u.created_at) :=
  dequeue_priority_fifo.1 tmABC taskA (by decide)

/-- An in-progress artifact carrying an embedded "error" status. -/
def dBoth : StatusData := { filename? := some "x.mp3", status? := some "error" }

/-- A state with both artifacts present for "x.mp3" and an empty cache. -/
def fmBoth : FMState :=
  { in_progress_files := [("x", dBoth)]
    result_files := [("x", encodeResult resSample)]
    source_files := ["x.mp3"] }

/-- The reachable aliasing state: "x.mp3" completed earlier (its cache
entry says completed), then "x.wav" — same stem "x" — started processing
and overwrote the stem's in-progress artifact. -/
def fmAliased : FMState :=
  { in_progress_files := [("x", { filename? := some "x.wav", status? := some "processing" })]
    result_files := [("x", encodeResult resSample)]
    source_files := ["x.mp3", "x.wav"]
    status_cache := [("x.mp3", { filename? := some "x.mp3", status? := some "completed" })] }

/-- Claim C6 as amended: when both artifacts exist for a key, `status_of`
returns the status embedded in the in-progress artifact (defaulting to
`PROCESSING` when the embedded field is absent) rather than `COMPLETED`
from the result artifact — provided the in-memory status cache holds no
entry for the key whose status parses as a valid `TaskStatus` (the cache
is consulted first). -/
theorem in_progress_status_precedence (fs : FMState) (tm : TMState) (fn : String)
    (d : StatusData) (st : TaskStatus)
    (_hres : dictContains fs.result_files (pathStem fn) = true)
    (hcache : cacheStatus fs fn = none)
    (hip : dictLookup fs.in_progress_files (pathStem fn) = some d)
    (hparse : TaskStatus.ofString? (d.status?.getD "processing") = some st) :
    getFileStatus fs tm fn = some st ∧
      (d.status? = none → st = TaskStatus.processing) := by
  constructor
  · simp only [getFileStatus, hcache, hip, hparse]
  · intro h
    rw [h] at hparse
    have hp : TaskStatus.ofString? ((none : Option String).getD "processing") =
        some TaskStatus.processing := by decide
    exact (Option.some_inj.mp (hp.symm.trans hparse)).symm

/-- Witness for C6: with both artifacts present and an empty cache, the
in-progress artifact's embedded "error" wins over the result artifact. -/
theorem in_progress_status_precedence_witness :
    getFileStatus fmBoth {} "x.mp3" = some TaskStatus.error ∧
      (dBoth.status? = none → TaskStatus.error = TaskStatus.processing) :=
  in_progress_status_precedence fmBoth {} "x.mp3" dBoth TaskStatus.error
    (by decide) (by decide) (by decide) (by decide)

/-- Counterexample to C6 as frozen: in the reachable aliasing state both
artifacts exist for "x.mp3" and the in-progress artifact embeds
"processing", yet `status_of` returns the cached `COMPLETED` — the cache
(spec §4.3 precedence clause (a), omitted by the claim) is consulted
before the in-progress artifact. -/
theorem cache_over_in_progress_counterexample :
    dictContains fmAliased.result_files (pathStem "x.mp3") = true ∧
    (dictLookup fmAliased.in_progress_files (pathStem "x.mp3")).map (·.status?) =
      some (some "processing") ∧
    getFileStatus fmAliased {} "x.mp3" = some TaskStatus.completed ∧
    TaskStatus.completed ≠ TaskStatus.processing := by decide

/-- An empty shared directory. -/
def fmEmpty : FMState := {}

/-- A completed job for "gone.mp3" surviving only in the
completed-history map (source file and artifacts all deleted). -/
def taskGone : ProcessingTask :=
  { task_id := "idg", filename := "gone.mp3", priority := .api,
    status := .completed, created_at := 0 }

/-- A task manager whose only trace of "gone.mp3" is the completed map. -/
def tmDone : TMState := { completed_tasks := [("gone.mp3", taskGone)] }

/-- Claim C7, evaluated at the failing input: with no artifacts and no
source file, a key present only in the completed-history map resolves to
`PENDING`, because `get_file_status` treats any `get_task_info` hit —
which also searches `_completed_tasks` — as "file is in queue"; the claim
(and the code's own comment) expect membership of the pending registry
only, hence `NOT_FOUND`. -/
theorem completed_history_reports_pending :
    dictContains tmDone.active_tasks "gone.mp3" = false ∧
    dictContains tmDone.completed_tasks "gone.mp3" = true ∧
    fmEmpty.in_progress_files.length = 0 ∧
    fmEmpty.result_files.length = 0 ∧
    fileExists fmEmpty "gone.mp3" = false ∧
    getFileStatus fmEmpty tmDone "gone.mp3" = some TaskStatus.pending ∧
    statusOf fmEmpty tmDone "gone.mp3" = TaskStatus.pending ∧
    TaskStatus.pending ≠ TaskStatus.file_not_found := by decide

/-- A `countP` over a disjunction of pointwise-exclusive tests splits into
a sum of two counts. -/
theorem countP_or_split (l : List α) (p q r : α → Bool)
    (h : ∀ a, (if p a then 1 else 0) =
      (if q a then 1 else 0) + (if r a then (1 : Nat) else 0)) :
    l.countP p = l.countP q + l.countP r := by
  induction l with
  | nil => rfl
  | cons a l ih =>
    simp only [List.countP_cons, ih, h a]
    omega

/-- Claim C8 (queue position formula): for a registered pending job, the
1-based position is 1 plus the number of other pending jobs of strictly
smaller priority value plus the number of other pending jobs of equal
priority and strictly earlier `created_at`; in the §8 scenario,
`position_of(C) = 2` before any dequeue. -/
theorem queue_position_formula :
    (∀ (tm : TMState) (fn : String) (t : ProcessingTask),
      dictLookup tm.active_tasks fn = some t → t.status = TaskStatus.pending →
      getQueuePosition tm fn = some (1 +
        (tm.active_tasks.countP (fun p => decide (p.2.status = TaskStatus.pending ∧
          p.1 ≠ fn ∧ p.2.priority.value < t.priority.value)) +
        tm.active_tasks.countP (fun p => decide (p.2.status = TaskStatus.pending ∧
          p.1 ≠ fn ∧ p.2.priority.value = t.priority.value ∧
          p.2.created_at < t.created_at))))) ∧
    getQueuePosition tmABC "C.mp3" = some 2 := by
  constructor
  · intro tm fn t hl ht
    simp only [getQueuePosition, hl]
    rw [if_neg (by simp [ht])]
    have := countP_or_split tm.active_tasks
      (fun p => decide (p.2.status = TaskStatus.pending ∧ p.1 ≠ fn ∧
        (p.2.priority.value < t.priority.value ∨
          (p.2.priority.value = t.priority.value ∧ p.2.created_at < t.created_at))))
      (fun p => decide (p.2.status = TaskStatus.pending ∧ p.1 ≠ fn ∧
        p.2.priority.value < t.priority.value))
      (fun p => decide (p.2.status = TaskStatus.pending ∧ p.1 ≠ fn ∧
        p.2.priority.value = t.priority.value ∧ p.2.created_at < t.created_at))
      ?_
    · rw [this]
    · intro a
      by_cases hS : a.2.status = TaskStatus.pending <;>
        by_cases hN : a.1 ≠ fn <;>
          by_cases hA : a.2.priority.value < t.priority.value <;>
            by_cases hE : a.2.priority.value = t.priority.value <;>
              by_cases hC : a.2.created_at < t.created_at <;>
                simp_all
  · decide

/-- The §8 scenario's job C, exactly as `add_task` builds it. -/
def taskC : ProcessingTask :=
  { task_id := "idC", filename := "C.mp3", priority := .api,
    status := .pending, created_at := 2 }

/-- Witness for C8: the formula applied to job C of the §8 scenario. -/
theorem queue_position_formula_witness :
    getQueuePosition tmABC "C.mp3" = some (1 +
      (tmABC.active_tasks.countP (fun p => decide (p.2.status = TaskStatus.pending ∧
        p.1 ≠ "C.mp3" ∧ p.2.priority.value < taskC.priority.value)) +
      tmABC.active_tasks.countP (fun p => decide (p.2.status = TaskStatus.pending ∧
        p.1 ≠ "C.mp3" ∧ p.2.priority.value = taskC.priority.value ∧
        p.2.created_at < taskC.created_at)))) :=
  queue_position_formula.1 tmABC "C.mp3" taskC (by decide) (by decide)

/-- Claim C9 as amended: `estimated_wait = (position - 1) *
avg_processing_time`, where `avg_processing_time` starts at `0.0` — not at
a non-zero fallback; the `60.0` default of the `.get` lookup is dead code
because the statistics dict always carries the key — and is maintained as
the running mean `avg' = (avg*(n-1) + new_time)/n` over the `n` successful
completions. -/
theorem estimated_wait_running_mean :
    ({} : Stats).avg_processing_time = 0 ∧
    (∀ (t : ℚ) (st : Stats),
      (updateStats t true st).total_processed = st.total_processed + 1 ∧
      (updateStats t true st).avg_processing_time =
        (st.avg_processing_time * ((st.total_processed + 1 : ℚ) - 1) + t) /
          ((st.total_processed + 1 : ℚ))) ∧
    (∀ (tm : TMState) (tid : String) (task : ProcessingTask) (pos : Nat),
      (tm.active_tasks.map (fun p => p.2)).find? (fun u => u.task_id == tid) =
        some task →
      task.status = TaskStatus.pending →
      getQueuePosition tm task.filename = some pos →
      getEstimatedWaitTime tm tid =
        some (((pos : ℚ) - 1) * tm.stats.avg_processing_time)) := by
  refine ⟨rfl, ?_, ?_⟩
  · intro t st
    refine ⟨rfl, ?_⟩
    simp [updateStats]
  · intro tm tid task pos hfind hst hpos
    simp only [getEstimatedWaitTime, hfind, hpos]
    rw [if_neg (by simp [hst])]

/-- Witness for C9: the wait formula applied to job C of the §8
scenario (position 2, average still at its initial value). -/
theorem estimated_wait_running_mean_witness :
    getEstimatedWaitTime tmABC "idC" =
      some ((((2 : Nat) : ℚ) - 1) * tmABC.stats.avg_processing_time) :=
  estimated_wait_running_mean.2.2 tmABC "idC" taskC 2 (by decide) (by decide)
    (by decide)

/-- Counterexample to C9 as frozen: before any successful completion the
average is `0.0`, so job C at position 2 gets an estimated wait of `0`,
not `(2-1) * 60` as the documented one-minute fallback would give — the
fallback is never used. -/
theorem estimated_wait_zero_counterexample :
    tmABC.stats.total_processed = 0 ∧
    getQueuePosition tmABC "C.mp3" = some 2 ∧
    getEstimatedWaitTime tmABC "idC" = some 0 ∧
    (60 : ℚ) ≠ 0 ∧
    getEstimatedWaitTime tmABC "idC" ≠ some (((2 : ℚ) - 1) * 60) := by
  have hfind : (tmABC.active_tasks.map (fun p => p.2)).find?
      (fun u => u.task_id == "idC") = some taskC := by decide
  have hpos : getQueuePosition tmABC "C.mp3" = some 2 := by decide
  have havg : tmABC.stats.avg_processing_time = 0 := rfl
  have hwait : getEstimatedWaitTime tmABC "idC" = some 0 := by
    simp only [getEstimatedWaitTime, hfind]
    rw [if_neg (by decide)]
    have h2 : getQueuePosition tmABC taskC.filename = some 2 := hpos
    rw [h2, havg]
    norm_num
  refine ⟨by decide, hpos, hwait, by norm_num, ?_⟩
  rw [hwait]
  intro hcontra
  have h3 := Option.some_inj.mp hcontra
  norm_num at h3

/-- Claim C10 (statistics frame on failure): the failure-path statistics
update increments only `total_errors`, leaving `avg_processing_time` and
`total_processed` untouched — so the rolling average reflects successful
completions only — and the terminal-failure path of `_process_task`
produces exactly that update. -/
theorem stats_failure_frame :
    (∀ (t : ℚ) (st : Stats),
      updateStats t false st = { st with total_errors := st.total_errors + 1 } ∧
      (updateStats t false st).avg_processing_time = st.avg_processing_time ∧
      (updateStats t false st).total_processed = st.total_processed) ∧
    (∀ (tm : TMState) (fs : FMState) (task : ProcessingTask) (msg : String)
        (t0 t1 : Nat),
      (processTask tm fs task (.failure msg) (task.retry_count + 1) t0 t1).1.stats =
        { tm.stats with total_errors := tm.stats.total_errors + 1 }) := by
  constructor
  · intro t st
    exact ⟨rfl, rfl, rfl⟩
  · intro tm fs task msg t0 t1
    simp only [processTask, beginProcessing, finishFailure]
    rw [if_neg (by simp)]
    rfl
